import Mathlib

/-!
Verification development for the website2pdf conversion pipeline
(src/src/utils/const.ts: the constants block and the main pipeline
`processSitemaps` / `processSitemap` / `sitemapToPDF` / `pageToPDF`).

The pipeline's effects on the observable world (the shared result
collection, the set of open page contexts, the set of created
directories, and the chronological trace of actions) are embedded as
pure state-passing functions.  The external world's answers for one
URL (does `fs.ensureDir` succeed, does `page.goto` succeed, what the
page's title and meta tags are, does `page.pdf` succeed, and when the
un-awaited `page.title()` promise resolves) are bundled in a
`UrlBehavior` record, so that every control path of the source is a
plain branch of the embedding.

The bounded `PromisePool` scheduler of the `@supercharge/promise-pool`
library is an external collaborator; its timing behaviour is embedded
separately as a small-step machine (`poolStep` / `poolRun`) driven by
an arbitrary schedule, over which the concurrency-bound and
serialization theorems are proved for every schedule.
-/

namespace Website2Pdf

/-- Status of one conversion outcome (src/utils/stats.ts exports
STATUS_PRINTED and STATUS_ERROR; imported at line 88 of the main file). -/
inductive Status
  | PRINTED
  | ERRORED
deriving DecidableEq, Repr

/-- One recorded conversion outcome: the URL, the file path handed to the
result store, and the status (spec section 3, ConversionOutcome). -/
structure ConversionOutcome where
  url : String
  filePath : String
  status : Status
deriving DecidableEq, Repr

/-- A parsed absolute URL, reduced to the components the pipeline reads:
host and path.  `href` is the serialized form used as the work-item key. -/
structure Url where
  host : String
  path : String
deriving DecidableEq, Repr

def Url.href (u : Url) : String := u.host ++ u.path

/-- Observable actions of the pipeline, recorded in chronological order. -/
inductive Event
  | pageOpened (url : String)
  | dirEnsured (dir : String)
  | navigated (url : String)
  | metasStored (url : String)
  | pdfWritten (url : String) (filePath : String)
  | resultStored (url : String) (filePath : String) (status : Status)
  | pageClosed (url : String)
  | warnedEmptySitemap (rootUrl : String)
  | resultsPrinted
  | browserClosed
deriving DecidableEq, Repr

/-- Observable state threaded through the pipeline: the shared outcome
collection owned by PrintResults, the currently open page contexts
(keyed by URL href), the set of directories created on disk, and the
chronological event trace. -/
structure RunState where
  results : List ConversionOutcome
  openPages : List String
  dirs : List String
  trace : List Event
deriving DecidableEq, Repr

/-- The empty starting state of a run. -/
def initialRunState : RunState := ⟨[], [], [], []⟩

/-- Default inner-pool concurrency (src/utils/const.ts line 31:
`export const DEFAULT_PROCESS_POOL = 10`). -/
def DEFAULT_PROCESS_POOL : Nat := 10

/-- Characters unsafe across target filesystems (spec section 4.1). -/
def unsafeChars : List Char := ['\\', ':', '*', '?', '"', '<', '>', '|']

/-- Control characters in the ASCII sense. -/
def isCtrl (c : Char) : Bool := c.toNat < 32

/-- Collapse runs of spaces to a single space. -/
def collapseWs (cs : List Char) : List Char :=
  (cs.foldl
    (fun acc c =>
      if c = ' ' then (if acc.2 then acc else (acc.1 ++ [' '], true))
      else (acc.1 ++ [c], false))
    (([] : List Char), false)).1

/-- Modelled from the spec: `toFilename` lives in src/utils/helpers.ts,
which is not under src/.  Spec section 4.1: when safe mode is on, strip
characters unsafe across filesystems and control characters and collapse
whitespace; when off, use the raw title; fall back to the token
"untitled" when the title is absent or empty.  Deterministic. -/
def toFilename (title : Option String) (safeMode : Bool) : String :=
  match title with
  | none => "untitled"
  | some t =>
    if t = "" then "untitled"
    else if safeMode then
      String.mk (collapseWs (t.toList.filter
        (fun c => !(unsafeChars.contains c) && !(isCtrl c) && !(c == '/'))))
    else t

/-- Modelled from the spec: `toFilePath` lives in src/utils/helpers.ts,
which is not under src/.  Spec section 4.1: derive a directory path from
the URL's host and path components, preserving hierarchy and replacing
filesystem-unsafe characters.  Deterministic in the URL. -/
def toFilePath (u : Url) : String :=
  String.mk ((u.host ++ u.path).toList.filter
    (fun c => c == '/' || (!(unsafeChars.contains c) && !(isCtrl c))))

/-- Join of two path segments, as path.join does for already-normalized
segments. -/
def pathJoin (a b : String) : String := a ++ "/" ++ b

/-- Identity placeholder for path.normalize (an external path library
routine applied to the configured output directory at line 161); its
normalization details play no role in any claim. -/
def pathNormalize (p : String) : String := p

/-- Page metadata as built by the source: a JS Map from meta name to meta
content, where a content attribute may be null (`getAttribute` returns
null and the source stores it through a non-null assertion, line 243). -/
abbrev Metadata := List (String × Option String)

/-- JS `Map.set`: update in place when the key exists (keeping insertion
order), append otherwise. -/
def mapSet (m : Metadata) (k : String) (v : Option String) : Metadata :=
  if m.any (fun p => p.1 == k) then
    m.map (fun p => if p.1 == k then (k, v) else p)
  else m ++ [(k, v)]

/-- JS `Map.get`: the stored value when the key exists. -/
def mapGet (m : Metadata) (k : String) : Option (Option String) :=
  (m.find? (fun p => p.1 == k)).map (fun p => p.2)

/-- A header or footer template, pre-tokenized into literal runs and
placeholder tokens. -/
inductive TemplatePart
  | lit (s : String)
  | placeholder (key : String)
deriving DecidableEq, Repr

/-- Modelled from the spec: `interpolate` lives in src/utils/helpers.ts,
which is not under src/.  Spec section 4.2: substitute the metadata value
for every placeholder token; unknown or missing keys substitute the empty
string; pure. -/
def interpolate (tmpl : List TemplatePart) (m : Metadata) : String :=
  tmpl.foldl
    (fun acc part =>
      match part with
      | .lit s => acc ++ s
      | .placeholder k => acc ++ (((mapGet m k).bind id).getD ""))
    ""

/-- When, relative to the rest of the per-URL promise chain, the
un-awaited `page.title()` promise resolves.  The source (lines 224-228)
fires `page.title().then(title => metadatas.set('title', title))` inside
a `.then` callback WITHOUT returning or awaiting it, so its resolution
point is a free scheduling parameter: before the meta-tag extraction
fills the map, after it but before the filename/interpolation step at
lines 248-264, or only after that step has already read the map. -/
inductive TitleTiming
  | beforeMetas
  | afterMetas
  | afterDerive
deriving DecidableEq, Repr

/-- What the page returns to the browser collaborator for one URL: the
document title and the raw meta tags, each carrying an optional name
attribute and an optional content attribute. -/
structure PageData where
  title : String
  metas : List (Option String × Option String)
deriving DecidableEq, Repr

/-- The external world's answers for one URL of a sitemap: the URL
itself, whether `fs.ensureDir(fileDir)` succeeds, whether `page.goto`
succeeds, the page's content, whether the meta-tag `$$eval` succeeds,
where the floating title promise resolves, and whether `page.pdf`
succeeds. -/
structure UrlBehavior where
  url : Url
  ensureDirOk : Bool
  gotoOk : Bool
  page : PageData
  metasOk : Bool
  titleTiming : TitleTiming
  pdfOk : Bool
deriving DecidableEq, Repr

/-- The metadata map as it stands when the source reaches the
filename-derivation and header/footer-interpolation step (lines
248-264): the title entry is present only when the floating
`page.title()` promise has already resolved by then (source lines
224-228 never await it); the meta-tag entries are those tags whose name
attribute is non-null, as filtered at lines 231-246, inserted in
document order with JS Map update semantics. -/
def metadataAtDerive (b : UrlBehavior) : Metadata :=
  let m0 : Metadata :=
    if b.titleTiming = .beforeMetas then mapSet [] "title" (some b.page.title) else []
  let m1 := (b.page.metas.filterMap
      (fun p => p.1.map (fun n => (n, p.2)))).foldl
    (fun m nv => mapSet m nv.1 nv.2) m0
  if b.titleTiming = .afterMetas then mapSet m1 "title" (some b.page.title) else m1

/-- Per-URL output directory: `path.join(outputDir, toFilePath(url))`
(source line 213). -/
def fileDirOf (outputDir : String) (b : UrlBehavior) : String :=
  pathJoin outputDir (toFilePath b.url)

/-- CLI arguments consumed by the pipeline core. -/
structure CliArgs where
  outputDir : String
  safeTitle : Bool
  displayHeaderFooter : Bool
  processPool : Nat
deriving DecidableEq, Repr

/-- The final PDF path computed at lines 249-255:
`path.join(fileDir, toFilename(metadatas.get('title')?.toString(), safeTitle) + '.pdf')`;
the optional-chaining `?.` collapses a stored null content to absent. -/
def derivedFilePath (cli : CliArgs) (outputDir : String) (b : UrlBehavior) : String :=
  pathJoin (fileDirOf outputDir b)
    (toFilename ((mapGet (metadataAtDerive b) "title").bind id) cli.safeTitle ++ ".pdf")

/-- Modelled from the spec: `PrintResults.storeResult` lives in
src/utils/stats.ts, which is not under src/.  Spec sections 3 and 4.5:
append exactly one ConversionOutcome to the shared append-only
collection. -/
def storeResult (s : RunState) (url : Url) (filePath : String) (st : Status) : RunState :=
  { s with
    results := s.results ++ [⟨url.href, filePath, st⟩],
    trace := s.trace ++ [.resultStored url.href filePath st] }

/-- Close the page context for a URL (the `.finally` at lines 281-283). -/
def closePage (s : RunState) (u : String) : RunState :=
  { s with
    openPages := s.openPages.erase u,
    trace := s.trace ++ [.pageClosed u] }

/-- Record a directory as created on disk (`fs.ensureDir` is
idempotent: it creates the directory when missing). -/
def insertDir (dirs : List String) (d : String) : List String :=
  if d ∈ dirs then dirs else dirs ++ [d]

/-- Embedding of `pageToPDF` (source lines 203-285).  The promise chain is:
`browserContext.newPage().then(page => { ... fs.ensureDir(fileDir).then(log).then(() => page.goto(url).then(title floating).then($$eval metas).then(derive path; page.pdf().then(store PRINTED).catch(store ERRORED; rethrow)).finally(page.close)) })`.
Consequences embedded literally:
when `fs.ensureDir` rejects, the navigation chain and its `.finally` never
run, so the page stays open and no outcome is stored; when `page.goto` or
the `$$eval` rejects, the `.finally` closes the page but the only `.catch`
in the function sits on `page.pdf` alone, so no outcome is stored and the
rejection propagates; when `page.pdf` rejects, ERRORED is stored and the
error is rethrown; when it fulfills, PRINTED is stored.  The returned
Bool is whether the promise handed to the per-URL pool slot fulfilled. -/
def pageToPDF (cli : CliArgs) (outputDir : String) (b : UrlBehavior)
    (s : RunState) : RunState × Bool :=
  let u := b.url.href
  let s1 : RunState :=
    { s with openPages := s.openPages ++ [u], trace := s.trace ++ [.pageOpened u] }
  let fileDir := fileDirOf outputDir b
  if b.ensureDirOk then
    let s2 : RunState :=
      { s1 with dirs := insertDir s1.dirs fileDir, trace := s1.trace ++ [.dirEnsured fileDir] }
    if b.gotoOk then
      let s3 : RunState := { s2 with trace := s2.trace ++ [.navigated u] }
      if b.metasOk then
        let filePath := derivedFilePath cli outputDir b
        let s4 : RunState := { s3 with trace := s3.trace ++ [.metasStored u] }
        if b.pdfOk then
          let s5 := storeResult
            { s4 with trace := s4.trace ++ [.pdfWritten u filePath] } b.url filePath .PRINTED
          (closePage s5 u, true)
        else
          (closePage (storeResult s4 b.url filePath .ERRORED) u, false)
      else
        (closePage s3 u, false)
    else
      (closePage s2 u, false)
  else
    (s1, false)

/-- A sitemap together with the external world's answers for its URLs:
the root URL, the behaviors of the URLs in document order (the source's
`sitemap.urls`, each paired with its environment), and whether the
`fs.ensureDir(outputDir)` call at lines 183-184 succeeds for this
sitemap's processing. -/
structure Sitemap where
  rootUrl : String
  urls : List UrlBehavior
  ensureDirOk : Bool
deriving DecidableEq, Repr

/-- Aggregate state effect of
`PromisePool.for(sitemap.urls).withConcurrency(cliArgs.processPool).process(pageToPDF ...)`
(source lines 192-199).  The pool runs every item exactly once and
collects a rejected item's error instead of aborting the others (library
semantics; spec sections 4.4 and 9), so the pool's own promise fulfills
after all items settle.  State effects are modelled in submission order;
every property proved about this fold is insensitive to the completion
order, which the pool leaves unspecified (spec section 5).  The timing
side of the pool is modelled separately by `poolRun` below. -/
def runInnerPool (cli : CliArgs) (outputDir : String)
    (urls : List UrlBehavior) (s : RunState) : RunState :=
  urls.foldl (fun st b => (pageToPDF cli outputDir b st).1) s

/-- Embedding of `sitemapToPDF` (source lines 176-201):
`fs.ensureDir(outputDir)` first; when it rejects, nothing of the sitemap
runs and the rejection propagates to the outer pool slot; otherwise the
inner pool over the sitemap's URLs runs and the function's promise
fulfills (the inner pool collects per-item errors). -/
def sitemapToPDF (cli : CliArgs) (outputDir : String) (sm : Sitemap)
    (s : RunState) : RunState × Bool :=
  if sm.ensureDirOk then
    let s1 : RunState :=
      { s with dirs := insertDir s.dirs outputDir,
               trace := s.trace ++ [.dirEnsured outputDir] }
    (runInnerPool cli outputDir sm.urls s1, true)
  else (s, false)

/-- Embedding of `processSitemap` (source lines 154-174): when the
sitemap's URL list is non-empty, normalize the configured output
directory and run `sitemapToPDF`; otherwise log a warning and do no
per-URL work. -/
def processSitemap (cli : CliArgs) (sm : Sitemap) (s : RunState) : RunState × Bool :=
  if sm.urls.length ≠ 0 then
    sitemapToPDF cli (pathNormalize cli.outputDir) sm s
  else
    ({ s with trace := s.trace ++ [.warnedEmptySitemap sm.rootUrl] }, true)

/-- The website model: its discovered sitemaps (model/website.ts is an
out-of-scope collaborator; only the `sitemaps` list is read by the
pipeline). -/
structure Website where
  sitemaps : List Sitemap
deriving DecidableEq, Repr

/-- The browser collaborator's answers for one run: whether
`puppeteer.launch` fulfills, whether `browser.version()` fulfills, and
whether `createIncognitoBrowserContext()` fulfills. -/
structure BrowserEnv where
  launchOk : Bool
  versionOk : Bool
  contextOk : Bool
deriving DecidableEq, Repr

/-- Aggregate state effect of the outer
`PromisePool.for(website.sitemaps).withConcurrency(1)` (source lines
132-144): every sitemap processed exactly once, serialized; a rejection
from one sitemap's slot is collected, not propagated to siblings. -/
def runOuterPool (cli : CliArgs) (sitemaps : List Sitemap) (s : RunState) : RunState :=
  sitemaps.foldl (fun st sm => (processSitemap cli sm st).1) s

/-- Outer pool concurrency, fixed by `withConcurrency(1)` at source
line 133. -/
def outerPoolConcurrency : Nat := 1

/-- Inner pool concurrency, `withConcurrency(cliArgs.processPool)` at
source line 193; its CLI default is `DEFAULT_PROCESS_POOL`. -/
def innerPoolConcurrency (cli : CliArgs) : Nat := cli.processPool

/-- Embedding of `processSitemaps` (source lines 113-152).  The chain is
`puppeteer.launch().then(browser => browser.version().then(log).then(() => createIncognitoBrowserContext().then(ctx => outer pool)).finally(() => { PrintResults.printResults(); browser.close(); }))`.
When `launch` rejects nothing runs (no `.finally` is ever installed);
when `version` or the context creation rejects, the pool never runs but
the `.finally` still prints the results and closes the browser; when the
chain completes, the `.finally` runs after the outer pool has drained.
The returned Bool is whether the whole promise fulfilled. -/
def processSitemaps (cli : CliArgs) (w : Website) (env : BrowserEnv)
    (s : RunState) : RunState × Bool :=
  if env.launchOk then
    let body : RunState × Bool :=
      if env.versionOk then
        if env.contextOk then (runOuterPool cli w.sitemaps s, true)
        else (s, false)
      else (s, false)
    ({ body.1 with trace := body.1.trace ++ [.resultsPrinted, .browserClosed] }, body.2)
  else (s, false)

/-! ### The bounded promise pool as a small-step machine

`@supercharge/promise-pool` is an external collaborator (spec sections
4.4, 5 and 9: a generic bounded-concurrency task scheduler).  Its timing
behaviour is modelled as a machine over abstract work items `0, 1, ...`:
an item may be started only while fewer than `n` items are in flight
(items are started in submission order), and any in-flight item may be
advanced one step, finishing when its steps are exhausted.  A run is
driven by an arbitrary schedule; invalid choices are rejected. -/

/-- Timing events of a pool run, tagged with the item index. -/
inductive PEvent
  | started (i : Nat)
  | worked (i : Nat)
  | finished (i : Nat)
deriving DecidableEq, Repr

/-- The item an event belongs to. -/
def PEvent.item : PEvent → Nat
  | .started i => i
  | .worked i => i
  | .finished i => i

/-- One scheduling choice: start the next submitted item, or advance the
in-flight item with the given index. -/
inductive PoolChoice
  | startNext
  | advance (i : Nat)
deriving DecidableEq, Repr

/-- State of a pool run: the next item to start, the in-flight items with
their remaining step counts, and the timing events so far. -/
structure PoolState where
  nextItem : Nat
  inFlight : List (Nat × Nat)
  events : List PEvent
deriving DecidableEq, Repr

/-- Initial pool state. -/
def poolInit : PoolState := ⟨0, [], []⟩

/-- One transition of the bounded pool with concurrency `n` over `total`
items, where item `i` takes `stepsOf i` working steps. -/
def poolStep (n total : Nat) (stepsOf : Nat → Nat) (st : PoolState)
    (c : PoolChoice) : Option PoolState :=
  match c with
  | .startNext =>
    if st.nextItem < total ∧ st.inFlight.length < n then
      some ⟨st.nextItem + 1,
            st.inFlight ++ [(st.nextItem, stepsOf st.nextItem)],
            st.events ++ [.started st.nextItem]⟩
    else none
  | .advance i =>
    match st.inFlight.find? (fun p => p.1 == i) with
    | none => none
    | some p =>
      if p.2 = 0 then
        some ⟨st.nextItem,
              st.inFlight.filter (fun q => q.1 != i),
              st.events ++ [.finished i]⟩
      else
        some ⟨st.nextItem,
              st.inFlight.map (fun q => if q.1 = i then (i, q.2 - 1) else q),
              st.events ++ [.worked i]⟩

/-- Run the pool machine along a schedule from a given state. -/
def poolRunFrom (n total : Nat) (stepsOf : Nat → Nat) (s0 : PoolState)
    (sched : List PoolChoice) : Option PoolState :=
  sched.foldlM (poolStep n total stepsOf) s0

/-- Run the pool machine along a schedule from the initial state. -/
def poolRun (n total : Nat) (stepsOf : Nat → Nat)
    (sched : List PoolChoice) : Option PoolState :=
  poolRunFrom n total stepsOf poolInit sched

/-! ### Derived predicates and helper lemmas -/

/-- A URL's processing reaches the `page.pdf` call: directory creation,
navigation and meta extraction all succeeded. -/
def reachesPdfStep (b : UrlBehavior) : Bool :=
  b.ensureDirOk && b.gotoOk && b.metasOk

/-- The outcome `pageToPDF` stores for a URL that reaches the `page.pdf`
call. -/
def outcomeOf (cli : CliArgs) (outputDir : String) (b : UrlBehavior) : ConversionOutcome :=
  ⟨b.url.href, derivedFilePath cli outputDir b,
   if b.pdfOk then Status.PRINTED else Status.ERRORED⟩

/-- Recognizer for the final-report event. -/
def isPrint : Event → Bool
  | .resultsPrinted => true
  | _ => false

/-- Number of outcomes with a given status. -/
def countStatus (st : Status) (rs : List ConversionOutcome) : Nat :=
  (rs.filter (fun o => o.status == st)).length

/-- Every step of a URL's processing succeeds. -/
def allOk (b : UrlBehavior) : Prop :=
  b.ensureDirOk = true ∧ b.gotoOk = true ∧ b.metasOk = true ∧ b.pdfOk = true

/-- The URL's processing fails exactly at the PDF-rendering step. -/
def renderFails (b : UrlBehavior) : Prop :=
  b.ensureDirOk = true ∧ b.gotoOk = true ∧ b.metasOk = true ∧ b.pdfOk = false

theorem pageToPDF_results (cli : CliArgs) (od : String) (b : UrlBehavior) (s : RunState) :
    (pageToPDF cli od b s).1.results =
      s.results ++ (if reachesPdfStep b then [outcomeOf cli od b] else []) := by
  cases hE : b.ensureDirOk <;> cases hG : b.gotoOk <;>
    cases hM : b.metasOk <;> cases hP : b.pdfOk <;>
    simp [pageToPDF, reachesPdfStep, outcomeOf, storeResult, closePage, hE, hG, hM, hP]

theorem pageToPDF_ok (cli : CliArgs) (od : String) (b : UrlBehavior) (s : RunState) :
    (pageToPDF cli od b s).2 = (reachesPdfStep b && b.pdfOk) := by
  cases hE : b.ensureDirOk <;> cases hG : b.gotoOk <;>
    cases hM : b.metasOk <;> cases hP : b.pdfOk <;>
    simp [pageToPDF, reachesPdfStep, storeResult, closePage, hE, hG, hM, hP]

theorem pageToPDF_dirs (cli : CliArgs) (od : String) (b : UrlBehavior) (s : RunState) :
    (pageToPDF cli od b s).1.dirs =
      (if b.ensureDirOk then insertDir s.dirs (fileDirOf od b) else s.dirs) := by
  cases hE : b.ensureDirOk <;> cases hG : b.gotoOk <;>
    cases hM : b.metasOk <;> cases hP : b.pdfOk <;>
    simp [pageToPDF, storeResult, closePage, hE, hG, hM, hP]

theorem mem_insertDir (dirs : List String) (d : String) : d ∈ insertDir dirs d := by
  by_cases h : d ∈ dirs <;> simp [insertDir, h]

theorem pageToPDF_trace_countP (cli : CliArgs) (od : String) (b : UrlBehavior) (s : RunState) :
    ((pageToPDF cli od b s).1.trace.countP isPrint) = s.trace.countP isPrint := by
  cases hE : b.ensureDirOk <;> cases hG : b.gotoOk <;>
    cases hM : b.metasOk <;> cases hP : b.pdfOk <;>
    simp [pageToPDF, storeResult, closePage, isPrint, hE, hG, hM, hP,
      List.countP_append, List.countP_cons]

theorem runInnerPool_cons (cli : CliArgs) (od : String) (b : UrlBehavior)
    (bs : List UrlBehavior) (s : RunState) :
    runInnerPool cli od (b :: bs) s = runInnerPool cli od bs (pageToPDF cli od b s).1 := rfl

theorem runInnerPool_results (cli : CliArgs) (od : String)
    (urls : List UrlBehavior) (s : RunState) :
    (runInnerPool cli od urls s).results =
      s.results ++ (urls.filter reachesPdfStep).map (outcomeOf cli od) := by
  induction urls generalizing s with
  | nil => simp [runInnerPool]
  | cons b bs ih =>
    rw [runInnerPool_cons, ih, pageToPDF_results]
    by_cases h : reachesPdfStep b = true <;>
      simp [List.filter_cons, h]

theorem runInnerPool_trace_countP (cli : CliArgs) (od : String)
    (urls : List UrlBehavior) (s : RunState) :
    ((runInnerPool cli od urls s).trace.countP isPrint) = s.trace.countP isPrint := by
  induction urls generalizing s with
  | nil => simp [runInnerPool]
  | cons b bs ih =>
    rw [runInnerPool_cons, ih, pageToPDF_trace_countP]

theorem sitemapToPDF_results (cli : CliArgs) (od : String) (sm : Sitemap) (s : RunState) :
    (sitemapToPDF cli od sm s).1.results =
      s.results ++ (if sm.ensureDirOk then
        (sm.urls.filter reachesPdfStep).map (outcomeOf cli od) else []) := by
  cases hD : sm.ensureDirOk <;>
    simp [sitemapToPDF, hD, runInnerPool_results]

theorem sitemapToPDF_trace_countP (cli : CliArgs) (od : String) (sm : Sitemap) (s : RunState) :
    ((sitemapToPDF cli od sm s).1.trace.countP isPrint) = s.trace.countP isPrint := by
  cases hD : sm.ensureDirOk <;>
    simp [sitemapToPDF, hD, runInnerPool_trace_countP, isPrint,
      List.countP_append, List.countP_cons]

/-- The outcomes one sitemap contributes to the shared collection. -/
def sitemapOutcomes (cli : CliArgs) (sm : Sitemap) : List ConversionOutcome :=
  if sm.urls.length ≠ 0 ∧ sm.ensureDirOk = true then
    (sm.urls.filter reachesPdfStep).map (outcomeOf cli (pathNormalize cli.outputDir))
  else []

theorem processSitemap_results (cli : CliArgs) (sm : Sitemap) (s : RunState) :
    (processSitemap cli sm s).1.results = s.results ++ sitemapOutcomes cli sm := by
  by_cases hU : sm.urls.length ≠ 0
  · cases hD : sm.ensureDirOk <;>
      simp [processSitemap, sitemapOutcomes, hU, hD, sitemapToPDF_results]
  · simp [processSitemap, sitemapOutcomes, hU]

theorem processSitemap_trace_countP (cli : CliArgs) (sm : Sitemap) (s : RunState) :
    ((processSitemap cli sm s).1.trace.countP isPrint) = s.trace.countP isPrint := by
  by_cases hU : sm.urls.length ≠ 0
  · simp [processSitemap, hU, sitemapToPDF_trace_countP]
  · simp [processSitemap, hU, isPrint, List.countP_append, List.countP_cons]

theorem runOuterPool_results (cli : CliArgs) (sitemaps : List Sitemap) (s : RunState) :
    (runOuterPool cli sitemaps s).results =
      s.results ++ (sitemaps.map (sitemapOutcomes cli)).flatten := by
  induction sitemaps generalizing s with
  | nil => simp [runOuterPool]
  | cons sm sms ih =>
    show (runOuterPool cli sms (processSitemap cli sm s).1).results = _
    rw [ih, processSitemap_results]
    simp

theorem runOuterPool_trace_countP (cli : CliArgs) (sitemaps : List Sitemap) (s : RunState) :
    ((runOuterPool cli sitemaps s).trace.countP isPrint) = s.trace.countP isPrint := by
  induction sitemaps generalizing s with
  | nil => simp [runOuterPool]
  | cons sm sms ih =>
    show ((runOuterPool cli sms (processSitemap cli sm s).1).trace.countP isPrint) = _
    rw [ih, processSitemap_trace_countP]

/-! ### Pool machine invariants -/

/-- Recognizer for the start event of item `i`. -/
def isStartOf (i : Nat) : PEvent → Bool
  | .started j => j == i
  | _ => false

/-- Number of times item `i` was started in a trace. -/
def countStarted (i : Nat) (evs : List PEvent) : Nat := evs.countP (isStartOf i)

theorem countStarted_append (i : Nat) (evs : List PEvent) (e : PEvent) :
    countStarted i (evs ++ [e]) =
      countStarted i evs + (if isStartOf i e then 1 else 0) := by
  simp [countStarted, List.countP_append, List.countP_cons]

/-- Invariant of every reachable pool state: at most `n` items in
flight, the start pointer within bounds, and every item started exactly
once as soon as submitted, never again. -/
structure PoolInv (n total : Nat) (st : PoolState) : Prop where
  flightBound : st.inFlight.length ≤ n
  nextBound : st.nextItem ≤ total
  startedCount : ∀ i, countStarted i st.events = if i < st.nextItem then 1 else 0

theorem poolInit_inv (n total : Nat) : PoolInv n total poolInit := by
  refine ⟨by simp [poolInit], by simp [poolInit], ?_⟩
  intro i
  simp [poolInit, countStarted]

theorem poolStep_inv {n total : Nat} {stepsOf : Nat → Nat} {st st2 : PoolState}
    {c : PoolChoice} (hInv : PoolInv n total st)
    (h : poolStep n total stepsOf st c = some st2) : PoolInv n total st2 := by
  cases c with
  | startNext =>
    simp only [poolStep] at h
    split at h
    · next hcond =>
      obtain ⟨hlt, hfl⟩ := hcond
      cases h
      refine ⟨by simpa using hfl, by show st.nextItem + 1 ≤ total; omega, ?_⟩
      intro i
      rw [countStarted_append, hInv.startedCount i]
      by_cases hi : i = st.nextItem
      · subst hi
        simp [isStartOf]
      · have hne : (isStartOf i (PEvent.started st.nextItem)) = false := by
          simp [isStartOf]
          omega
        rw [hne]
        simp only [Bool.false_eq_true, if_false]
        split_ifs <;> omega
    · exact Option.noConfusion h
  | advance i =>
    simp only [poolStep] at h
    split at h
    · exact Option.noConfusion h
    · next p hf =>
      split at h
      · cases h
        refine ⟨le_trans (List.length_filter_le _ _) hInv.flightBound,
                hInv.nextBound, ?_⟩
        intro j
        rw [countStarted_append, hInv.startedCount j]
        simp [isStartOf]
      · cases h
        refine ⟨by simpa using hInv.flightBound, hInv.nextBound, ?_⟩
        intro j
        rw [countStarted_append, hInv.startedCount j]
        simp [isStartOf]

theorem poolRunFrom_inv {n total : Nat} {stepsOf : Nat → Nat} :
    ∀ (sched : List PoolChoice) (s0 st : PoolState), PoolInv n total s0 →
      poolRunFrom n total stepsOf s0 sched = some st → PoolInv n total st := by
  intro sched
  induction sched with
  | nil =>
    intro s0 st h0 h
    simp [poolRunFrom] at h
    exact h ▸ h0
  | cons c cs ih =>
    intro s0 st h0 h
    rw [poolRunFrom, List.foldlM_cons] at h
    cases hstep : poolStep n total stepsOf s0 c with
    | none =>
      rw [hstep] at h
      simp at h
    | some s1 =>
      rw [hstep] at h
      simp at h
      exact ih s1 st (poolStep_inv h0 hstep) h

theorem poolRun_inv {n total : Nat} {stepsOf : Nat → Nat}
    {sched : List PoolChoice} {st : PoolState}
    (h : poolRun n total stepsOf sched = some st) : PoolInv n total st :=
  poolRunFrom_inv sched poolInit st (poolInit_inv n total) h

theorem chainLe_snoc : ∀ (l : List Nat) (a : Nat), l.Chain' (· ≤ ·) →
    (∀ x ∈ l, x ≤ a) → (l ++ [a]).Chain' (· ≤ ·) := by
  intro l
  induction l with
  | nil =>
    intro a _ _
    simp
  | cons x xs ih =>
    intro a h hx
    rw [List.cons_append]
    cases xs with
    | nil =>
      exact List.chain'_cons.mpr ⟨hx x (List.mem_cons_self x []), List.chain'_singleton a⟩
    | cons y ys =>
      refine List.chain'_cons.mpr ⟨(List.chain'_cons.mp h).1, ?_⟩
      exact ih a (List.chain'_cons.mp h).2 (fun z hz => hx z (List.mem_cons_of_mem x hz))

/-- Invariant of every reachable state of the concurrency-1 pool: the
item-index sequence of the event trace is nondecreasing, only the most
recently submitted item can be in flight, and every item submitted
before it has already finished. -/
structure SerialInv (total : Nat) (st : PoolState) : Prop where
  base : PoolInv 1 total st
  flightLast : ∀ p ∈ st.inFlight, p.1 + 1 = st.nextItem
  eventsLt : ∀ e ∈ st.events, PEvent.item e < st.nextItem
  mono : (st.events.map PEvent.item).Chain' (· ≤ ·)
  finishedBefore : ∀ i, i + 1 < st.nextItem → PEvent.finished i ∈ st.events
  finishedAll : st.inFlight = [] → ∀ i, i < st.nextItem → PEvent.finished i ∈ st.events

theorem poolInit_serial (total : Nat) : SerialInv total poolInit := by
  refine ⟨poolInit_inv 1 total, ?_, ?_, ?_, ?_, ?_⟩ <;>
    simp [poolInit]

theorem poolStep_serial {total : Nat} {stepsOf : Nat → Nat} {st st2 : PoolState}
    {c : PoolChoice} (hInv : SerialInv total st)
    (h : poolStep 1 total stepsOf st c = some st2) : SerialInv total st2 := by
  have hbase := poolStep_inv hInv.base h
  cases c with
  | startNext =>
    simp only [poolStep] at h
    split at h
    · next hcond =>
      obtain ⟨hlt, hfl⟩ := hcond
      have hnil : st.inFlight = [] := List.length_eq_zero.mp (Nat.lt_one_iff.mp hfl)
      cases h
      refine ⟨hbase, ?_, ?_, ?_, ?_, ?_⟩
      · intro p hp
        rw [hnil] at hp
        simp at hp
        simp [hp]
      · intro e he
        simp at he
        rcases he with he | he
        · exact Nat.lt_succ_of_lt (hInv.eventsLt e he)
        · subst he
          simp [PEvent.item]
      · show ((st.events ++ [PEvent.started st.nextItem]).map PEvent.item).Chain' (· ≤ ·)
        rw [List.map_append]
        refine chainLe_snoc _ _ hInv.mono ?_
        intro x hx
        simp at hx
        obtain ⟨e, he, hex⟩ := hx
        have := hInv.eventsLt e he
        simp [PEvent.item]
        omega
      · intro i hi
        have hsplit : i + 1 < st.nextItem ∨ i + 1 = st.nextItem := by
          have : i + 1 < st.nextItem + 1 := hi
          omega
        rcases hsplit with h1 | h1
        · exact List.mem_append_left _ (hInv.finishedBefore i h1)
        · exact List.mem_append_left _ (hInv.finishedAll hnil i (by omega))
      · intro hfl2
        exact absurd hfl2 (by simp)
    · exact Option.noConfusion h
  | advance i =>
    simp only [poolStep] at h
    split at h
    · exact Option.noConfusion h
    · next p hf =>
      have hpmem : p ∈ st.inFlight := List.mem_of_find?_eq_some hf
      have hpi : p.1 = i := by
        have := List.find?_some hf
        simpa using this
      have hlast : i + 1 = st.nextItem := hpi ▸ hInv.flightLast p hpmem
      have hsing : st.inFlight = [p] := by
        have hlen := hInv.base.flightBound
        cases hIF : st.inFlight with
        | nil =>
          rw [hIF] at hpmem
          simp at hpmem
        | cons q qs =>
          rw [hIF] at hlen hpmem
          cases qs with
          | nil =>
            simp at hpmem
            rw [hpmem]
          | cons r rs =>
            simp at hlen
      split at h
      · cases h
        refine ⟨hbase, ?_, ?_, ?_, ?_, ?_⟩
        · intro q hq
          rw [hsing] at hq
          simp [hpi] at hq
        · intro e he
          simp at he
          rcases he with he | he
          · exact hInv.eventsLt e he
          · subst he
            simp [PEvent.item]
            omega
        · show ((st.events ++ [PEvent.finished i]).map PEvent.item).Chain' (· ≤ ·)
          rw [List.map_append]
          refine chainLe_snoc _ _ hInv.mono ?_
          intro x hx
          simp at hx
          obtain ⟨e, he, hex⟩ := hx
          have := hInv.eventsLt e he
          simp [PEvent.item]
          omega
        · intro j hj
          exact List.mem_append_left _ (hInv.finishedBefore j hj)
        · intro _ j hj
          have hj1 : j < st.nextItem := hj
          rcases Nat.lt_or_ge j i with hji | hji
          · exact List.mem_append_left _ (hInv.finishedBefore j (by omega))
          · have hj2 : j = i := by omega
            subst hj2
            exact List.mem_append_right _ (by simp)
      · cases h
        refine ⟨hbase, ?_, ?_, ?_, ?_, ?_⟩
        · intro q hq
          rw [List.mem_map] at hq
          obtain ⟨r, hr, hrq⟩ := hq
          have hrlast := hInv.flightLast r hr
          by_cases hri : r.1 = i
          · rw [if_pos hri] at hrq
            rw [← hrq]
            show i + 1 = st.nextItem
            exact hlast
          · rw [if_neg hri] at hrq
            rw [← hrq]
            exact hrlast
        · intro e he
          simp at he
          rcases he with he | he
          · exact hInv.eventsLt e he
          · subst he
            simp [PEvent.item]
            omega
        · show ((st.events ++ [PEvent.worked i]).map PEvent.item).Chain' (· ≤ ·)
          rw [List.map_append]
          refine chainLe_snoc _ _ hInv.mono ?_
          intro x hx
          simp at hx
          obtain ⟨e, he, hex⟩ := hx
          have := hInv.eventsLt e he
          simp [PEvent.item]
          omega
        · intro j hj
          exact List.mem_append_left _ (hInv.finishedBefore j hj)
        · intro hfl2
          rw [hsing] at hfl2
          simp at hfl2

theorem poolRunFrom_serial {total : Nat} {stepsOf : Nat → Nat} :
    ∀ (sched : List PoolChoice) (s0 st : PoolState), SerialInv total s0 →
      poolRunFrom 1 total stepsOf s0 sched = some st → SerialInv total st := by
  intro sched
  induction sched with
  | nil =>
    intro s0 st h0 h
    simp [poolRunFrom] at h
    exact h ▸ h0
  | cons c cs ih =>
    intro s0 st h0 h
    rw [poolRunFrom, List.foldlM_cons] at h
    cases hstep : poolStep 1 total stepsOf s0 c with
    | none =>
      rw [hstep] at h
      simp at h
    | some s1 =>
      rw [hstep] at h
      simp at h
      exact ih s1 st (poolStep_serial h0 hstep) h

theorem poolRun_serial {total : Nat} {stepsOf : Nat → Nat}
    {sched : List PoolChoice} {st : PoolState}
    (h : poolRun 1 total stepsOf sched = some st) : SerialInv total st :=
  poolRunFrom_serial sched poolInit st (poolInit_serial total) h

/-! ### Concrete fixtures for witnesses and counterexamples -/

/-- CLI arguments at the source defaults (DEFAULT_OUTPUT_DIR,
DEFAULT_SAFE_TITLE = false, DEFAULT_PROCESS_POOL = 10). -/
def cliFix : CliArgs := ⟨"./w2pdf_output", false, false, DEFAULT_PROCESS_POOL⟩

/-- A page titled Home with no meta tags. -/
def pageHome : PageData := ⟨"Home", []⟩

/-- A URL whose every processing step succeeds. -/
def bAllOk : UrlBehavior := ⟨⟨"localhost", "/ok"⟩, true, true, pageHome, true, .beforeMetas, true⟩

/-- A URL whose navigation (`page.goto`) fails. -/
def bNavFail : UrlBehavior := ⟨⟨"localhost", "/nav"⟩, true, false, pageHome, true, .beforeMetas, true⟩

/-- A URL whose per-URL directory creation (`fs.ensureDir`) fails. -/
def bDirFail : UrlBehavior := ⟨⟨"localhost", "/dir"⟩, false, true, pageHome, true, .beforeMetas, true⟩

/-- A URL whose PDF rendering (`page.pdf`) fails. -/
def bRenderFail : UrlBehavior := ⟨⟨"localhost", "/render"⟩, true, true, pageHome, true, .beforeMetas, false⟩

/-- A successfully processed URL whose floating title promise resolves
only after the filename-derivation step. -/
def bTitleLate : UrlBehavior := ⟨⟨"localhost", "/late"⟩, true, true, pageHome, true, .afterDerive, true⟩

/-- A successfully processed URL whose floating title promise resolves
before the meta extraction. -/
def bTitleEarly : UrlBehavior := ⟨⟨"localhost", "/early"⟩, true, true, pageHome, true, .beforeMetas, true⟩

/-- A browser environment in which every browser-level call succeeds. -/
def envAllOk : BrowserEnv := ⟨true, true, true⟩

/-- A browser environment in which the chain between launch and the
outer pool rejects (the pool never runs). -/
def envRaise : BrowserEnv := ⟨true, false, true⟩

/-- A one-sitemap website whose only URL fails navigation. -/
def smNavOnly : Sitemap := ⟨"http://localhost:1313/sitemap.xml", [bNavFail], true⟩

/-- Website holding only `smNavOnly`. -/
def wNavOnly : Website := ⟨[smNavOnly]⟩

/-- A sitemap with an empty URL list. -/
def smEmpty : Sitemap := ⟨"http://localhost:1313/sitemap.xml", [], true⟩

/-- Total number of URLs across all sitemaps whose urls list is
non-empty. -/
def totalAttemptedUrls (w : Website) : Nat :=
  ((w.sitemaps.filter (fun sm => sm.urls.length != 0)).map
    (fun sm => sm.urls.length)).sum

/-! ### Claim C1 -/

/-- C1 counterexample: a URL whose navigation fails is a failing per-URL
step, yet `pageToPDF` records no outcome at all — the only `.catch` that
stores a result sits on `page.pdf` alone (source lines 276-279) — so the
claimed ERRORED outcome is never recorded while the failure does
propagate to the pool slot. -/
theorem navFailureRecordsNoOutcome :
    bNavFail.ensureDirOk = true ∧ bNavFail.gotoOk = false
    ∧ (pageToPDF cliFix "out" bNavFail initialRunState).2 = false
    ∧ (pageToPDF cliFix "out" bNavFail initialRunState).1.results = [] := by
  refine ⟨rfl, rfl, ?_, ?_⟩ <;> rfl

/-- C1 (amended): when directory creation, navigation and metadata
extraction all succeed, `pageToPDF` records exactly one outcome — PRINTED
with the final file path on a successful render, ERRORED with that path
on a render failure, the latter also rejecting the URL's own pool slot;
when any of the three earlier steps fails, the failure propagates to the
URL's pool slot and no outcome at all is recorded. -/
theorem perUrlOutcomeRecording (cli : CliArgs) (od : String) (b : UrlBehavior) (s : RunState) :
    (b.ensureDirOk = true → b.gotoOk = true → b.metasOk = true →
      (pageToPDF cli od b s).1.results = s.results ++ [outcomeOf cli od b]
      ∧ (pageToPDF cli od b s).2 = b.pdfOk
      ∧ (b.pdfOk = true → (outcomeOf cli od b).status = Status.PRINTED)
      ∧ (b.pdfOk = false → (outcomeOf cli od b).status = Status.ERRORED))
    ∧ (¬(b.ensureDirOk = true ∧ b.gotoOk = true ∧ b.metasOk = true) →
      (pageToPDF cli od b s).1.results = s.results
      ∧ (pageToPDF cli od b s).2 = false) := by
  constructor
  · intro hE hG hM
    have hre : reachesPdfStep b = true := by simp [reachesPdfStep, hE, hG, hM]
    refine ⟨?_, ?_, ?_, ?_⟩
    · rw [pageToPDF_results, hre]
      simp
    · rw [pageToPDF_ok, hre]
      simp
    · intro hP
      simp [outcomeOf, hP]
    · intro hP
      simp [outcomeOf, hP]
  · intro hne
    have hre : reachesPdfStep b = false := by
      cases hE : b.ensureDirOk <;> cases hG : b.gotoOk <;> cases hM : b.metasOk <;>
        simp [reachesPdfStep, hE, hG, hM]
      exact absurd ⟨hE, hG, hM⟩ hne
    constructor
    · rw [pageToPDF_results, hre]
      simp
    · rw [pageToPDF_ok, hre]
      simp

/-- C1 witness: the amended theorem applied to a concrete render
failure. -/
theorem perUrlOutcomeRecording_witness :
    (pageToPDF cliFix "out" bRenderFail initialRunState).1.results =
      initialRunState.results ++ [outcomeOf cliFix "out" bRenderFail]
    ∧ (outcomeOf cliFix "out" bRenderFail).status = Status.ERRORED := by
  have h := (perUrlOutcomeRecording cliFix "out" bRenderFail initialRunState).1 rfl rfl rfl
  exact ⟨h.1, h.2.2.2 rfl⟩

/-! ### Claim C2 -/

/-- C2 counterexample: a run over one sitemap with one attempted URL
whose navigation fails ends with an empty outcome collection, so the
collection's final size (0) differs from the total number of URLs
across non-empty sitemaps (1). -/
theorem outcomeCountUndercount :
    totalAttemptedUrls wNavOnly = 1
    ∧ (processSitemaps cliFix wNavOnly envAllOk initialRunState).1.results.length = 0 := by
  constructor <;> rfl

/-- C2 (amended): after a run completes, the outcome collection has
grown by exactly the number of URLs whose processing reached the
PDF-rendering step — one outcome per such URL, none for URLs that failed
at directory creation, navigation or metadata extraction, and none for
sitemaps with an empty URL list or a failed per-sitemap directory
creation. -/
theorem resultsLengthCharacterization (cli : CliArgs) (w : Website) (env : BrowserEnv)
    (s : RunState) (hL : env.launchOk = true) (hV : env.versionOk = true)
    (hC : env.contextOk = true) :
    (processSitemaps cli w env s).1.results.length =
      s.results.length +
        ((w.sitemaps.map (fun sm => (sitemapOutcomes cli sm).length)).sum)
    ∧ ∀ sm ∈ w.sitemaps, (sitemapOutcomes cli sm).length =
        (if sm.urls.length ≠ 0 ∧ sm.ensureDirOk = true then
          (sm.urls.filter reachesPdfStep).length else 0) := by
  constructor
  · simp only [processSitemaps, hL, hV, hC, if_true]
    rw [runOuterPool_results]
    simp only [List.length_append, List.length_flatten, List.map_map]
    rfl
  · intro sm _
    simp only [sitemapOutcomes]
    split_ifs with h
    · exact List.length_map _ _
    · rfl

/-- C2 witness: the amended count theorem at a concrete run. -/
theorem resultsLengthCharacterization_witness :
    (processSitemaps cliFix wNavOnly envAllOk initialRunState).1.results.length =
      initialRunState.results.length +
        ((wNavOnly.sitemaps.map (fun sm => (sitemapOutcomes cliFix sm).length)).sum) :=
  (resultsLengthCharacterization cliFix wNavOnly envAllOk initialRunState rfl rfl rfl).1

/-! ### Claim C3 -/

theorem reaches_of_allOk {b : UrlBehavior} (h : allOk b) : reachesPdfStep b = true := by
  obtain ⟨h1, h2, h3, _⟩ := h
  simp [reachesPdfStep, h1, h2, h3]

theorem reaches_of_renderFails {b : UrlBehavior} (h : renderFails b) :
    reachesPdfStep b = true := by
  obtain ⟨h1, h2, h3, _⟩ := h
  simp [reachesPdfStep, h1, h2, h3]

/-- C3: a render failure on one URL of a sitemap does not prevent the
remaining URLs of the same sitemap from completing: every sibling is
processed exactly once (no retries) and contributes its own PRINTED
outcome, while the failing URL contributes exactly one ERRORED
outcome. -/
theorem renderFailureIsolated (cli : CliArgs) (od : String)
    (pre post : List UrlBehavior) (bad : UrlBehavior) (s : RunState)
    (hpre : ∀ b ∈ pre, allOk b) (hpost : ∀ b ∈ post, allOk b)
    (hbad : renderFails bad) :
    (runInnerPool cli od (pre ++ bad :: post) s).results =
      s.results ++ pre.map (outcomeOf cli od)
        ++ [outcomeOf cli od bad] ++ post.map (outcomeOf cli od)
    ∧ (outcomeOf cli od bad).status = Status.ERRORED
    ∧ (∀ b ∈ pre, (outcomeOf cli od b).status = Status.PRINTED)
    ∧ (∀ b ∈ post, (outcomeOf cli od b).status = Status.PRINTED) := by
  have hall : ∀ b ∈ pre ++ bad :: post, reachesPdfStep b = true := by
    intro b hb
    rcases List.mem_append.mp hb with hb | hb
    · exact reaches_of_allOk (hpre b hb)
    · rcases List.mem_cons.mp hb with hb | hb
      · rw [hb]
        exact reaches_of_renderFails hbad
      · exact reaches_of_allOk (hpost b hb)
  refine ⟨?_, ?_, ?_, ?_⟩
  · rw [runInnerPool_results, List.filter_eq_self.mpr hall]
    simp [List.map_append, List.append_assoc]
  · simp [outcomeOf, hbad.2.2.2]
  · intro b hb
    simp [outcomeOf, (hpre b hb).2.2.2]
  · intro b hb
    simp [outcomeOf, (hpost b hb).2.2.2]

/-- C3 witness: one render failure between two fully successful URLs. -/
theorem renderFailureIsolated_witness :
    (runInnerPool cliFix "out" ([bAllOk] ++ bRenderFail :: [bAllOk]) initialRunState).results =
      initialRunState.results ++ [bAllOk].map (outcomeOf cliFix "out")
        ++ [outcomeOf cliFix "out" bRenderFail] ++ [bAllOk].map (outcomeOf cliFix "out")
    ∧ (outcomeOf cliFix "out" bRenderFail).status = Status.ERRORED := by
  have h := renderFailureIsolated cliFix "out" [bAllOk] [bAllOk] bRenderFail initialRunState
    (by
      intro b hb
      rw [List.mem_singleton] at hb
      subst hb
      exact ⟨rfl, rfl, rfl, rfl⟩)
    (by
      intro b hb
      rw [List.mem_singleton] at hb
      subst hb
      exact ⟨rfl, rfl, rfl, rfl⟩)
    ⟨rfl, rfl, rfl, rfl⟩
  exact ⟨h.1, h.2.1⟩

/-! ### Claim C4 -/

/-- C4: the outer sitemap pool is configured with concurrency
`outerPoolConcurrency = 1` (source line 133), and in every run of the
bounded pool at that concurrency the event trace is fully serialized:
item indices are nondecreasing over time, and whenever a later sitemap
has started, every earlier sitemap has already finished — so no
processing of sitemap B begins before all of sitemap A has completed. -/
theorem outerPoolSerialized (total : Nat) (stepsOf : Nat → Nat)
    (sched : List PoolChoice) (st : PoolState)
    (h : poolRun outerPoolConcurrency total stepsOf sched = some st) :
    outerPoolConcurrency = 1
    ∧ (st.events.map PEvent.item).Chain' (· ≤ ·)
    ∧ (∀ i j, i < j → PEvent.started j ∈ st.events → PEvent.finished i ∈ st.events) := by
  have hs : SerialInv total st := poolRun_serial h
  refine ⟨rfl, hs.mono, ?_⟩
  intro i j hij hj
  have hjlt : PEvent.item (PEvent.started j) < st.nextItem := hs.eventsLt _ hj
  simp [PEvent.item] at hjlt
  exact hs.finishedBefore i (by omega)

/-- Schedule of a complete two-sitemap run at concurrency 1. -/
def schedTwoSerial : List PoolChoice :=
  [.startNext, .advance 0, .advance 0, .startNext, .advance 1, .advance 1]

/-- Final state of `schedTwoSerial`. -/
def stTwoSerial : PoolState :=
  ⟨2, [], [.started 0, .worked 0, .finished 0, .started 1, .worked 1, .finished 1]⟩

/-- C4 witness: the serialization theorem at a concrete two-item run. -/
theorem outerPoolSerialized_witness :
    (stTwoSerial.events.map PEvent.item).Chain' (· ≤ ·)
    ∧ PEvent.finished 0 ∈ stTwoSerial.events := by
  have h := outerPoolSerialized 2 (fun _ => 1) schedTwoSerial stTwoSerial (by decide)
  exact ⟨h.2.1, h.2.2 0 1 (by decide) (by decide)⟩

/-! ### Claim C5 -/

/-- C5: the inner pool runs at concurrency `innerPoolConcurrency cli =
cli.processPool` (source line 193), whose CLI default is
`DEFAULT_PROCESS_POOL = 10`; in every run of the bounded pool at that
concurrency at most that many items are in flight simultaneously, no
item is ever started twice, and in a complete run every item is started
exactly once. -/
theorem innerPoolBounded (cli : CliArgs) (total : Nat) (stepsOf : Nat → Nat)
    (sched : List PoolChoice) (st : PoolState)
    (h : poolRun (innerPoolConcurrency cli) total stepsOf sched = some st) :
    DEFAULT_PROCESS_POOL = 10
    ∧ st.inFlight.length ≤ innerPoolConcurrency cli
    ∧ (∀ i, countStarted i st.events ≤ 1)
    ∧ (st.nextItem = total → ∀ i, i < total → countStarted i st.events = 1) := by
  have hi := poolRun_inv h
  refine ⟨rfl, hi.flightBound, ?_, ?_⟩
  · intro i
    rw [hi.startedCount i]
    split_ifs <;> omega
  · intro hc i hlt
    rw [hi.startedCount i, if_pos (by omega)]

/-- CLI arguments with inner concurrency 2 (the spec's test scenario). -/
def cliPool2 : CliArgs := ⟨"./w2pdf_output", false, false, 2⟩

/-- A complete 5-item run at concurrency 2. -/
def schedFivePool2 : List PoolChoice :=
  [.startNext, .startNext, .advance 0, .advance 0, .advance 1, .advance 1,
   .startNext, .startNext, .advance 2, .advance 2, .advance 3, .advance 3,
   .startNext, .advance 4, .advance 4]

/-- Final state of `schedFivePool2`. -/
def stFivePool2 : PoolState :=
  ⟨5, [],
   [.started 0, .started 1, .worked 0, .finished 0, .worked 1, .finished 1,
    .started 2, .started 3, .worked 2, .finished 2, .worked 3, .finished 3,
    .started 4, .worked 4, .finished 4]⟩

/-- C5 witness: 5 URLs at inner concurrency 2 (the spec's scenario). -/
theorem innerPoolBounded_witness :
    stFivePool2.inFlight.length ≤ innerPoolConcurrency cliPool2
    ∧ countStarted 0 stFivePool2.events = 1 := by
  have h := innerPoolBounded cliPool2 5 (fun _ => 1) schedFivePool2 stFivePool2 (by decide)
  exact ⟨h.2.1, h.2.2.2 rfl 0 (by decide)⟩

/-! ### Claim C6 -/

/-- C6 (code evaluation at the failing input): when the per-URL
`fs.ensureDir(fileDir)` call rejects, the page context opened at source
line 210 is never closed — the `.finally(page.close)` at lines 281-283
is attached to the navigation chain, which never starts — whereas on a
navigation failure the same `.finally` does close the page. -/
theorem pageLeakOnEnsureDirFailure :
    bDirFail.ensureDirOk = false
    ∧ (pageToPDF cliFix "out" bDirFail initialRunState).1.openPages = [bDirFail.url.href]
    ∧ Event.pageClosed bDirFail.url.href ∉
        (pageToPDF cliFix "out" bDirFail initialRunState).1.trace
    ∧ (pageToPDF cliFix "out" bNavFail initialRunState).1.openPages = [] := by
  refine ⟨rfl, ?_, ?_, ?_⟩ <;> decide

/-! ### Claim C7 -/

/-- C7: once the browser has launched, `printResults` runs exactly once
per run, strictly after every event of both pool levels (it is the
second-to-last action, followed only by the browser teardown), and it
runs even when the chain carrying the outer pool rejected — it is called
from the `.finally` at source lines 147-150. -/
theorem printResultsExactlyOnce (cli : CliArgs) (w : Website) (env : BrowserEnv)
    (s : RunState) (hL : env.launchOk = true) :
    ((processSitemaps cli w env s).1.trace.countP isPrint) = s.trace.countP isPrint + 1
    ∧ ∃ t, (processSitemaps cli w env s).1.trace =
        t ++ [Event.resultsPrinted, Event.browserClosed]
      ∧ t.countP isPrint = s.trace.countP isPrint := by
  have key : ∃ t, (processSitemaps cli w env s).1.trace =
      t ++ [Event.resultsPrinted, Event.browserClosed]
      ∧ t.countP isPrint = s.trace.countP isPrint := by
    cases hV : env.versionOk with
    | false => exact ⟨s.trace, by simp [processSitemaps, hL, hV], rfl⟩
    | true =>
      cases hC : env.contextOk with
      | false => exact ⟨s.trace, by simp [processSitemaps, hL, hV, hC], rfl⟩
      | true =>
        exact ⟨(runOuterPool cli w.sitemaps s).trace,
          by simp [processSitemaps, hL, hV, hC],
          runOuterPool_trace_countP cli w.sitemaps s⟩
  obtain ⟨t, ht, hcnt⟩ := key
  refine ⟨?_, ⟨t, ht, hcnt⟩⟩
  rw [ht, List.countP_append, hcnt]
  simp [isPrint, List.countP_cons]

/-- C7 witness: the report still prints exactly once when the chain
rejects before the outer pool can run. -/
theorem printResultsExactlyOnce_witness :
    ((processSitemaps cliFix wNavOnly envRaise initialRunState).1.trace.countP isPrint) =
      initialRunState.trace.countP isPrint + 1 :=
  (printResultsExactlyOnce cliFix wNavOnly envRaise initialRunState rfl).1

/-! ### Claim C8 -/

/-- C8 (code evaluation at the failing input): the source never awaits
the `page.title()` promise (lines 224-228), so for a successfully
navigated page titled Home there is a schedule on which the metadata
used for filename derivation and header/footer interpolation contains no
title key: the PDF is written to the "untitled" fallback filename and a
title placeholder interpolates to the empty string.  On an early-enough
schedule the title is present, as the claim expects. -/
theorem titleRaceAtDerive :
    bTitleLate.gotoOk = true
    ∧ bTitleLate.page.title = "Home"
    ∧ mapGet (metadataAtDerive bTitleLate) "title" = none
    ∧ (pageToPDF cliFix "out" bTitleLate initialRunState).1.results =
        [⟨bTitleLate.url.href, "out/localhost/late/untitled.pdf", Status.PRINTED⟩]
    ∧ interpolate [TemplatePart.placeholder "title"] (metadataAtDerive bTitleLate) = ""
    ∧ mapGet (metadataAtDerive bTitleEarly) "title" = some (some "Home") := by
  refine ⟨rfl, rfl, rfl, ?_, rfl, ?_⟩ <;> rfl

/-! ### Claim C9 -/

/-- C9: a sitemap whose urls list is empty is skipped with exactly one
warning, leaves the outcome collection (and hence the ERRORED count),
the open pages and the created directories untouched, performs no
per-URL work, and fulfills its outer pool slot. -/
theorem emptySitemapSkipped (cli : CliArgs) (sm : Sitemap) (s : RunState)
    (h : sm.urls = []) :
    (processSitemap cli sm s).1.results = s.results
    ∧ (processSitemap cli sm s).1.trace = s.trace ++ [Event.warnedEmptySitemap sm.rootUrl]
    ∧ (processSitemap cli sm s).1.dirs = s.dirs
    ∧ (processSitemap cli sm s).1.openPages = s.openPages
    ∧ (processSitemap cli sm s).2 = true
    ∧ countStatus Status.ERRORED (processSitemap cli sm s).1.results =
        countStatus Status.ERRORED s.results := by
  have hlen : ¬ sm.urls.length ≠ 0 := by simp [h]
  refine ⟨?_, ?_, ?_, ?_, ?_, ?_⟩ <;> simp [processSitemap, hlen]

/-- C9 witness: the empty-sitemap theorem at a concrete sitemap. -/
theorem emptySitemapSkipped_witness :
    (processSitemap cliFix smEmpty initialRunState).1.results = initialRunState.results
    ∧ (processSitemap cliFix smEmpty initialRunState).1.trace =
        initialRunState.trace ++ [Event.warnedEmptySitemap smEmpty.rootUrl] := by
  have h := emptySitemapSkipped cliFix smEmpty initialRunState rfl
  exact ⟨h.1, h.2.1⟩

/-! ### Claim C10 -/

/-- C10: whenever the per-URL `fs.ensureDir(fileDir)` call succeeds, the
directory derived from the URL is on disk in the final state — also when
navigation, metadata extraction or rendering later fail — and the
directory-creation event is the second action of the URL's processing,
strictly before any navigation event. -/
theorem dirCreatedBeforeNavigation (cli : CliArgs) (od : String) (b : UrlBehavior)
    (s : RunState) (h : b.ensureDirOk = true) :
    fileDirOf od b ∈ (pageToPDF cli od b s).1.dirs
    ∧ ∃ es, (pageToPDF cli od b s).1.trace =
        s.trace ++ [Event.pageOpened b.url.href, Event.dirEnsured (fileDirOf od b)] ++ es := by
  constructor
  · rw [pageToPDF_dirs]
    simp only [h, if_true]
    exact mem_insertDir _ _
  · cases hG : b.gotoOk with
    | false =>
      exact ⟨[Event.pageClosed b.url.href],
        by simp [pageToPDF, closePage, h, hG, List.append_assoc]⟩
    | true =>
      cases hM : b.metasOk with
      | false =>
        exact ⟨[Event.navigated b.url.href, Event.pageClosed b.url.href],
          by simp [pageToPDF, closePage, h, hG, hM, List.append_assoc]⟩
      | true =>
        cases hP : b.pdfOk with
        | false =>
          exact ⟨[Event.navigated b.url.href, Event.metasStored b.url.href,
              Event.resultStored b.url.href (derivedFilePath cli od b) Status.ERRORED,
              Event.pageClosed b.url.href],
            by simp [pageToPDF, closePage, storeResult, h, hG, hM, hP, List.append_assoc]⟩
        | true =>
          exact ⟨[Event.navigated b.url.href, Event.metasStored b.url.href,
              Event.pdfWritten b.url.href (derivedFilePath cli od b),
              Event.resultStored b.url.href (derivedFilePath cli od b) Status.PRINTED,
              Event.pageClosed b.url.href],
            by simp [pageToPDF, closePage, storeResult, h, hG, hM, hP, List.append_assoc]⟩

/-- C10 witness: the directory persists even when navigation fails. -/
theorem dirCreatedBeforeNavigation_witness :
    fileDirOf "out" bNavFail ∈ (pageToPDF cliFix "out" bNavFail initialRunState).1.dirs :=
  (dirCreatedBeforeNavigation cliFix "out" bNavFail initialRunState rfl).1

end Website2Pdf
